import Mathlib

/-!
Verification of the marker-diff scripts in `util/classes.py`.

Strings are embedded as `List Char`; Python's `str.replace` and `str.split`
are modelled by `pyReplace` and `pySplit` (leftmost, non-overlapping);
fallible Python code returns `Except PyErr` values, where `PyErr` names the
Python exception class that would be raised.
-/

/-- Characters of a Lean string literal, used to write Python string
constants as `List Char`. -/
def lc (s : String) : List Char := s.data

/-- The Python exception classes that the modelled code can raise. -/
inductive PyErr where
  | indexError
  | attributeError
  | keyError
  | valueError
  deriving DecidableEq, Repr

/-- Fuel-driven worker for `pyReplace`; the fuel bounds the number of
recursion steps so the definition is structural and computes by `rfl`. -/
def pyReplaceFuel (pat rep : List Char) : Nat → List Char → List Char
  | 0, s => s
  | fuel + 1, s =>
    if pat.isEmpty then s
    else if pat.isPrefixOf s then rep ++ pyReplaceFuel pat rep fuel (s.drop pat.length)
    else
      match s with
      | [] => []
      | c :: cs => c :: pyReplaceFuel pat rep fuel cs

/-- Model of Python's `str.replace(pat, rep)`: replace every leftmost
non-overlapping occurrence of `pat` in `s` by `rep`.  (The code under
verification never calls it with an empty pattern.) -/
def pyReplace (s pat rep : List Char) : List Char :=
  pyReplaceFuel pat rep (s.length + 1) s

theorem pyReplaceFuel_succ (pat rep : List Char) (f : Nat) (s : List Char) :
    pyReplaceFuel pat rep (f + 1) s =
      if pat.isEmpty then s
      else if pat.isPrefixOf s then rep ++ pyReplaceFuel pat rep f (s.drop pat.length)
      else match s with
        | [] => []
        | c :: cs => c :: pyReplaceFuel pat rep f cs := rfl

theorem pyReplaceFuel_congr (pat rep : List Char) :
    ∀ f₁ f₂ s, s.length < f₁ → s.length < f₂ →
      pyReplaceFuel pat rep f₁ s = pyReplaceFuel pat rep f₂ s := by
  intro f₁
  induction f₁ with
  | zero => intro f₂ s h₁ _; omega
  | succ g₁ ih =>
    intro f₂ s h₁ h₂
    cases f₂ with
    | zero => omega
    | succ g₂ =>
      rw [pyReplaceFuel_succ, pyReplaceFuel_succ]
      by_cases hp : pat.isEmpty
      · simp [hp]
      · rw [if_neg hp, if_neg hp]
        have hplen : 0 < pat.length := by
          cases pat with
          | nil => simp at hp
          | cons a l => simp
        by_cases hpre : pat.isPrefixOf s
        · have hle : pat.length ≤ s.length :=
            (List.isPrefixOf_iff_prefix.mp hpre).length_le
          rw [if_pos hpre, if_pos hpre]
          congr 1
          exact ih g₂ (s.drop pat.length)
            (by rw [List.length_drop]; omega)
            (by rw [List.length_drop]; omega)
        · rw [if_neg hpre, if_neg hpre]
          cases s with
          | nil => rfl
          | cons c cs =>
            simp only [List.length_cons] at h₁ h₂
            show c :: pyReplaceFuel pat rep g₁ cs = c :: pyReplaceFuel pat rep g₂ cs
            congr 1
            exact ih g₂ cs (by omega) (by omega)

/-- Unfolding equation: when the pattern is a prefix of the string, the
replacement fires and scanning resumes after the matched occurrence. -/
theorem pyReplace_fire {s pat : List Char} (rep : List Char)
    (hp : pat ≠ []) (hpre : pat.isPrefixOf s) :
    pyReplace s pat rep = rep ++ pyReplace (s.drop pat.length) pat rep := by
  have hplen : 0 < pat.length := List.length_pos.mpr hp
  have hle : pat.length ≤ s.length :=
    (List.isPrefixOf_iff_prefix.mp hpre).length_le
  have hp' : ¬ pat.isEmpty := by
    cases pat with
    | nil => exact absurd rfl hp
    | cons a l => simp
  unfold pyReplace
  rw [pyReplaceFuel_succ, if_neg hp', if_pos hpre]
  congr 1
  apply pyReplaceFuel_congr
  · rw [List.length_drop]; omega
  · rw [List.length_drop]; omega

/-- Unfolding equation: when the pattern does not match at the head, the
head character is kept and scanning continues on the tail. -/
theorem pyReplace_skip {c : Char} {cs pat : List Char} (rep : List Char)
    (hp : pat ≠ []) (hpre : ¬ pat.isPrefixOf (c :: cs)) :
    pyReplace (c :: cs) pat rep = c :: pyReplace cs pat rep := by
  have hp' : ¬ pat.isEmpty := by
    cases pat with
    | nil => exact absurd rfl hp
    | cons a l => simp
  unfold pyReplace
  rw [List.length_cons, pyReplaceFuel_succ, if_neg hp', if_neg hpre]

/-- Unfolding equation: replacing in the empty string yields the empty
string (for a nonempty pattern). -/
theorem pyReplace_nil {pat : List Char} (rep : List Char) (hp : pat ≠ []) :
    pyReplace [] pat rep = [] := by
  have hp' : ¬ pat.isEmpty := by
    cases pat with
    | nil => exact absurd rfl hp
    | cons a l => simp
  have hpre : ¬ pat.isPrefixOf ([] : List Char) := by
    cases pat with
    | nil => exact absurd rfl hp
    | cons a l => simp [List.isPrefixOf]
  unfold pyReplace
  rw [show ([] : List Char).length + 1 = 0 + 1 from rfl, pyReplaceFuel_succ,
    if_neg hp', if_neg hpre]

/-- Fuel-driven worker for `pySplit`, carrying the reversed current chunk. -/
def pySplitFuel (sep : List Char) : Nat → List Char → List Char → List (List Char)
  | 0, acc, s => [acc.reverse ++ s]
  | fuel + 1, acc, s =>
    if sep.isEmpty then [acc.reverse ++ s]
    else if sep.isPrefixOf s then
      acc.reverse :: pySplitFuel sep fuel [] (s.drop sep.length)
    else
      match s with
      | [] => [acc.reverse]
      | c :: cs => pySplitFuel sep fuel (c :: acc) cs

/-- Model of Python's `str.split(sep)` for a nonempty separator: cut the
string at every leftmost non-overlapping occurrence of `sep`.  The result
always has at least one element, and has at least two exactly when `sep`
occurs in `s`. -/
def pySplit (s sep : List Char) : List (List Char) :=
  pySplitFuel sep (s.length + 1) [] s

/-- Model of Python's `sub in s` substring test. -/
def containsSub (s sub : List Char) : Bool :=
  match s with
  | [] => sub.isEmpty
  | _ :: tail => sub.isPrefixOf s || containsSub tail sub

/-- JSON values, as produced by `json.loads`.  Numbers are modelled as
integers only: the telemetry payloads this development evaluates the
parser on contain no fractional or exponent literals. -/
inductive Json where
  | null
  | jbool (b : Bool)
  | jnum (n : Int)
  | jstr (s : List Char)
  | arr (elems : List Json)
  | obj (fields : List (List Char × Json))

/-- Drop leading JSON whitespace. -/
def skipWs (s : List Char) : List Char :=
  s.dropWhile (fun c => c = ' ' || c = '\t' || c = '\n' || c = '\r')

/-- Parse the body of a JSON string literal after the opening quote,
up to the closing quote.  Escape sequences are not handled: a backslash
makes the parse fail (the payloads parsed here never contain one). -/
def parseStrBody : List Char → Option (List Char × List Char)
  | [] => none
  | c :: cs =>
    if c = '"' then some ([], cs)
    else if c = '\\' then none
    else (parseStrBody cs).map (fun p => (c :: p.1, p.2))

/-- Numeric value of a list of decimal digits. -/
def natOfDigits (ds : List Char) : Nat :=
  ds.foldl (fun a c => a * 10 + (c.toNat - 48)) 0

/-- Parse a leading run of decimal digits. -/
def parseDigits (s : List Char) : Option (Nat × List Char) :=
  let ds := s.takeWhile Char.isDigit
  if ds.isEmpty then none else some (natOfDigits ds, s.dropWhile Char.isDigit)

/-- Parse a JSON integer literal (optional minus sign, then digits). -/
def parseNumber (s : List Char) : Option (Json × List Char) :=
  match s with
  | '-' :: rest => (parseDigits rest).map (fun p => (Json.jnum (-(p.1 : Int)), p.2))
  | _ => (parseDigits s).map (fun p => (Json.jnum (p.1 : Int), p.2))

mutual

/-- Recursive-descent parser for one JSON value; the fuel bounds the
recursion depth. -/
def parseValue : Nat → List Char → Option (Json × List Char)
  | 0, _ => none
  | f + 1, s =>
    match skipWs s with
    | '"' :: cs => (parseStrBody cs).map (fun p => (Json.jstr p.1, p.2))
    | '\x7b' :: cs =>
      (match skipWs cs with
       | '\x7d' :: rest => some (Json.obj [], rest)
       | rest => (parseMembers f rest).map (fun p => (Json.obj p.1, p.2)))
    | '[' :: cs =>
      (match skipWs cs with
       | ']' :: rest => some (Json.arr [], rest)
       | rest => (parseElems f rest).map (fun p => (Json.arr p.1, p.2)))
    | 't' :: 'r' :: 'u' :: 'e' :: cs => some (Json.jbool true, cs)
    | 'f' :: 'a' :: 'l' :: 's' :: 'e' :: cs => some (Json.jbool false, cs)
    | 'n' :: 'u' :: 'l' :: 'l' :: cs => some (Json.null, cs)
    | c :: cs => if c = '-' || c.isDigit then parseNumber (c :: cs) else none
    | [] => none

/-- Parse the members of a JSON object after the opening brace, closing
brace included. -/
def parseMembers : Nat → List Char → Option (List (List Char × Json) × List Char)
  | 0, _ => none
  | f + 1, s =>
    match skipWs s with
    | '"' :: cs =>
      (match parseStrBody cs with
       | none => none
       | some (key, rest) =>
         match skipWs rest with
         | ':' :: rest2 =>
           (match parseValue f rest2 with
            | none => none
            | some (v, rest3) =>
              match skipWs rest3 with
              | ',' :: rest4 => (parseMembers f rest4).map (fun p => ((key, v) :: p.1, p.2))
              | '\x7d' :: rest4 => some ([(key, v)], rest4)
              | _ => none)
         | _ => none)
    | _ => none

/-- Parse the elements of a JSON array after the opening bracket, closing
bracket included. -/
def parseElems : Nat → List Char → Option (List Json × List Char)
  | 0, _ => none
  | f + 1, s =>
    match parseValue f s with
    | none => none
    | some (v, rest) =>
      match skipWs rest with
      | ',' :: rest2 => (parseElems f rest2).map (fun p => (v :: p.1, p.2))
      | ']' :: rest2 => some ([v], rest2)
      | _ => none

end

/-- Model of Python's `json.loads`: parse one JSON document, requiring
that only whitespace follows it.  The error message stands for the
`JSONDecodeError` text that `parse_configs` logs. -/
def jsonLoads (s : List Char) : Except String Json :=
  match parseValue (2 * s.length + 2) s with
  | some (v, rest) => if (skipWs rest).isEmpty then Except.ok v else Except.error "Extra data"
  | none => Except.error "Expecting value"

/-- Embedding of `__remove_double_quotes` from
`Device.get_configs_difference.parse_configs` (classes.py lines 261-269),
with the replacements chained exactly as in the source's three
statements. -/
def removeDoubleQuotes (data : List Char) : List Char :=
  let str1 := pyReplace (pyReplace data (lc "\x7b\"") (lc "vikr")) (lc "\",\"") (lc "sandep")
  let str2 := pyReplace (pyReplace (pyReplace str1 (lc "\" : \"") (lc "arun"))
    (lc "\":\"") (lc "bindhu")) (lc "\"\x7d") (lc "gauth")
  let str3 := pyReplace str2 (lc "\"") []
  pyReplace (pyReplace (pyReplace (pyReplace (pyReplace (pyReplace str3
    (lc "vikr") (lc "\x7b\"")) (lc "sandep") (lc "\",\"")) (lc "arun") (lc "\"  :  \""))
    (lc "bindhu") (lc "\":\"")) (lc "gauth") (lc "\"\x7d")) (lc "\\") (lc "#")

/-- Spec-side step 1 of the normalizer: replace the five fixed structural
sequences by the five placeholder tokens, in order. -/
def placeholderPass (s : List Char) : List Char :=
  pyReplace (pyReplace (pyReplace (pyReplace (pyReplace s
    (lc "\x7b\"") (lc "vikr")) (lc "\",\"") (lc "sandep")) (lc "\" : \"") (lc "arun"))
    (lc "\":\"") (lc "bindhu")) (lc "\"\x7d") (lc "gauth")

/-- Spec-side step 2 of the normalizer: strip every remaining literal
double-quote character. -/
def stripQuotesPass (s : List Char) : List Char :=
  pyReplace s (lc "\"") []

/-- Spec-side step 3 of the normalizer: replace the placeholder tokens
back, restoring the double-spaced key/value separator variant. -/
def restorePass (s : List Char) : List Char :=
  pyReplace (pyReplace (pyReplace (pyReplace (pyReplace s
    (lc "vikr") (lc "\x7b\"")) (lc "sandep") (lc "\",\"")) (lc "arun") (lc "\"  :  \""))
    (lc "bindhu") (lc "\":\"")) (lc "gauth") (lc "\"\x7d")

/-- Spec-side step 4 of the normalizer: replace every literal backslash
with the sentinel character `#`. -/
def hashBackslashPass (s : List Char) : List Char :=
  pyReplace s (lc "\\") (lc "#")

/-- Sentinel substring that marks the telemetry-profile line
(classes.py line 274). -/
def profileSentinel : List Char := lc "urn:settings:TelemetryProfile"

/-- Key marker the sentinel line is split on (classes.py line 275). -/
def telemetryKey : List Char := lc "telemetryProfile\":"

/-- Trailing-field marker the payload is split on (classes.py line 276). -/
def scheduleKey : List Char := lc ",\"schedule\":\""

/-- The per-family preprocessing of the isolated payload (classes.py
lines 277-282): families XB3/XB6/XF3 get the single fixed substitution
of the literal `"cid":"0"` by `cid:0`; families XG/XI5 go through
`removeDoubleQuotes`; any other family leaves `parse_data` as the empty
string. -/
def preprocessPayload (dt : String) (payload : List Char) : List Char :=
  if dt = "XB3" ∨ dt = "XB6" ∨ dt = "XF3" then
    pyReplace payload (lc "\"cid\":\"0\"") (lc "cid:0")
  else if dt = "XG" ∨ dt = "XI5" then
    removeDoubleQuotes payload
  else []

/-- Payload isolation of a sentinel line (classes.py lines 275-276):
`line.split('telemetryProfile":')[1].split(',"schedule":"')[0]`. -/
def isolatePayload (line : List Char) : List Char :=
  (pySplit ((pySplit line telemetryKey).getD 1 []) scheduleKey).headD []

/-- Embedding of `parse_configs` (classes.py lines 271-287) on the list
of file lines.  The first component collects the messages that
`logging.info(e)` records for failed JSON parses; the second is the
returned value, or the uncaught `IndexError` raised by
`data_string[1]` when a sentinel line lacks the key marker. -/
def parseConfigs (dt : String) : List (List Char) → List String × Except PyErr (Option Json)
  | [] => ([], Except.ok none)
  | line :: rest =>
    if containsSub line profileSentinel then
      match pySplit line telemetryKey with
      | _ :: _ :: _ =>
        (match jsonLoads (preprocessPayload dt (isolatePayload line)) with
         | Except.ok j => ([], Except.ok (some j))
         | Except.error msg =>
           let r := parseConfigs dt rest
           (msg :: r.1, r.2))
      | _ => ([], Except.error PyErr.indexError)
    else parseConfigs dt rest

/-- Lexicographic comparison of character lists (code-point order), used
to model numpy's sort on string arrays. -/
def lexLe : List Char → List Char → Bool
  | [], _ => true
  | _ :: _, [] => false
  | a :: as, b :: bs => if a = b then lexLe as bs else decide (a < b)

/-- Lexicographic comparison of strings. -/
def strLe (a b : String) : Bool := lexLe a.data b.data

/-- Ordered insertion for `sortStrings`. -/
def insertStr (x : String) : List String → List String
  | [] => [x]
  | y :: ys => if strLe x y then x :: y :: ys else y :: insertStr x ys

/-- Insertion sort under `strLe`, modelling the sorted order of a numpy
string array. -/
def sortStrings : List String → List String
  | [] => []
  | x :: xs => insertStr x (sortStrings xs)

/-- Model of `numpy.setdiff1d(ar1, ar2)`: the sorted unique values of
`ar1` that are not in `ar2`. -/
def setdiff1d (ar1 ar2 : List String) : List String :=
  sortStrings ((ar1.filter (fun x => decide (x ∉ ar2))).dedup)

/-- Marker diff of §4.3 of the design: markers of the reference list that
are missing from the on-device list, as computed by
`np.setdiff1d(errors_conf, errors_configs)` in classes.py line 295. -/
def diffMarkers (onDeviceMarkers referenceMarkers : List String) : List String :=
  setdiff1d referenceMarkers onDeviceMarkers

/-- String value of a header cell (header cells in the telemetry
payloads are JSON strings). -/
def jsonCellString : Json → String
  | Json.jstr s => String.mk s
  | _ => ""

/-- Model of `list(pd.DataFrame(data)[col])` for the payload shapes that
occur: `none` (the extractor returned no data) gives an empty frame whose
column lookup raises `KeyError`; a JSON array of objects gives a frame
whose columns are the union of the objects' keys (a missing cell is NaN,
modelled by `Json.null`); any other payload shape fails in the frame
constructor or the column lookup. -/
def dataFrameColumn (data : Option Json) (col : List Char) : Except PyErr (List Json) :=
  match data with
  | none => Except.error PyErr.keyError
  | some (Json.arr rows) =>
    if rows.any (fun r => match r with
        | Json.obj fields => fields.any (fun f => f.1 == col)
        | _ => false) then
      Except.ok (rows.map (fun r => match r with
        | Json.obj fields => ((fields.find? (fun f => f.1 == col)).map Prod.snd).getD Json.null
        | _ => Json.null))
    else Except.error PyErr.keyError
  | some _ => Except.error PyErr.valueError

/-- Names of the methods defined on class `Product` (classes.py). -/
def productMethods : List String :=
  ["get_product_type", "get_email_sender", "get_email_subject", "get_recipient_list"]

/-- Names of the methods defined on class `Device`, its inherited
`Product` methods included (classes.py). -/
def deviceMethods : List String :=
  ["get_device_type", "get_splunk_macs_query", "get_splunk_daily_percents_query",
   "get_logpath", "get_command", "find_online_device", "get_conf_error_df",
   "get_configs_difference", "write_macs_to_local_file", "get_macs",
   "get_daily_errors"] ++ productMethods

/-- Embedding of `Device.get_configs_difference` (classes.py lines
249-297).  Inputs: the device type, the lines of the downloaded config
file, and the reference markers that the (undefined) accessor
`get_static_error_df` was meant to provide.  The first component is the
log trace of `parse_configs`; the second is the result, or the Python
exception the call raises: the attribute lookup of
`get_static_error_df` on `self` fails when that name is defined on
neither `Device` nor `Product`. -/
def getConfigsDifference (dt : String) (content : List (List Char))
    (confMarkers : List String) : List String × Except PyErr (List String) :=
  let pc := parseConfigs dt content
  match pc.2 with
  | Except.error e => (pc.1, Except.error e)
  | Except.ok data =>
    match dataFrameColumn data (lc "header") with
    | Except.error e => (pc.1, Except.error e)
    | Except.ok errorsConfigs =>
      if deviceMethods.contains "get_static_error_df" then
        (pc.1, Except.ok (setdiff1d confMarkers (errorsConfigs.map jsonCellString)))
      else (pc.1, Except.error PyErr.attributeError)

/-- The instance attributes a `Device` object has after `__init__` ran
(private names mangled by Python's name mangling, as `self.__x` inside
class `Device` resolves to `_Device__x`). -/
def deviceInstanceAttrs : List String :=
  ["_Product__product_type", "_Product__email_sender", "_Product__email_subject",
   "_Product__recipient_list", "_Device__device_type", "_Device__splunk_query_macs",
   "_Device__splunk_query_daily_percents", "_Device__logpath", "_Device__command",
   "_Device__local_macs_path"]

/-- Attribute lookup on a `Device` instance: succeeds exactly when the
mangled name exists.  The carried value is irrelevant to the claims. -/
def deviceGetattr (name : String) : Except PyErr Unit :=
  if deviceInstanceAttrs.contains name then Except.ok ()
  else Except.error PyErr.attributeError

/-- Embedding of `Device.get_splunk_daily_percents_query` (classes.py
lines 180-189): the body reads `self.__splunk_query_daily_percent`,
which mangles to `_Device__splunk_query_daily_percent`. -/
def getSplunkDailyPercentsQuery : Except PyErr Unit :=
  deviceGetattr "_Device__splunk_query_daily_percent"

/-- Model of `list(pd.DataFrame(events)[col])` for a list of Splunk
result records (each a mapping from field name to string value). -/
def eventsColumn (events : List (List (String × String))) (col : String) :
    Except PyErr (List String) :=
  if events.any (fun r => r.any (fun f => f.1 == col)) then
    Except.ok (events.map (fun r => ((r.find? (fun f => f.1 == col)).map Prod.snd).getD ""))
  else Except.error PyErr.keyError

/-- The result handling of `Device.get_daily_errors` (classes.py lines
352-356): a nonempty event list is turned into its `marker` column, an
empty one into the empty list. -/
def dailyErrorsFromEvents (events : List (List (String × String))) :
    Except PyErr (List String) :=
  if events.length > 0 then eventsColumn events "marker" else Except.ok []

/-- Embedding of `Device.get_daily_errors` (classes.py lines 333-356) as
a function of the records the Splunk query would return.  The query text
is built first, by calling `get_splunk_daily_percents_query`. -/
def getDailyErrors (events : List (List (String × String))) : Except PyErr (List String) :=
  match getSplunkDailyPercentsQuery with
  | Except.error e => Except.error e
  | Except.ok _ => dailyErrorsFromEvents events

/-- The `while found_one == False` loop of `Device.find_online_device`
(classes.py lines 223-236), acting on the not-yet-popped candidates in
pop order: `macs.pop()` on an exhausted list raises `IndexError`; a live
candidate of type XI5 returns its MAC, one of type XB3/XB6/XF3/XG its
resolved IP, and a live candidate of any other type ends the loop with
no return value (Python then returns `None`). -/
def findOnlineLoop (dt : String) (online : String → Bool)
    (ipOf : String → String → String) : List String → Except PyErr (Option String)
  | [] => Except.error PyErr.indexError
  | mac :: rest =>
    if online mac then
      if dt = "XI5" then Except.ok (some mac)
      else if dt = "XB3" ∨ dt = "XB6" ∨ dt = "XF3" ∨ dt = "XG" then
        Except.ok (some (ipOf mac dt))
      else Except.ok none
    else findOnlineLoop dt online ipOf rest

/-- Embedding of `Device.find_online_device` (classes.py lines 207-236)
as a function of the shuffled candidate list (`random.shuffle` makes the
order arbitrary, so the theorems quantify over it), the liveness oracle
`web_pa.router_is_online` and the resolver `web_pa.ip_from_mac`.
`list.pop()` takes candidates from the end, hence the reversal. -/
def findOnlineDevice (dt : String) (online : String → Bool)
    (ipOf : String → String → String) (macs : List String) : Except PyErr (Option String) :=
  findOnlineLoop dt online ipOf macs.reverse

/-! General occurrence lemmas about `pyReplace`, used to track the
normalizer passes through rendered payload strings. -/

theorem pyReplace_front {pat : List Char} (b rep : List Char) (hp : pat ≠ []) :
    pyReplace (pat ++ b) pat rep = rep ++ pyReplace b pat rep := by
  rw [pyReplace_fire rep hp (List.isPrefixOf_iff_prefix.mpr (List.prefix_append pat b)),
    List.drop_left]

theorem not_isPrefixOf_head {c c' : Char} {p s : List Char} (h : c ≠ c') :
    ¬ (c :: p).isPrefixOf (c' :: s) := by
  simp only [List.isPrefixOf, Bool.and_eq_true, beq_iff_eq]
  rintro ⟨rfl, -⟩
  exact h rfl

theorem not_isPrefixOf_second {c d e : Char} {p s : List Char} (h : d ≠ e) :
    ¬ (c :: d :: p).isPrefixOf (c :: e :: s) := by
  simp only [List.isPrefixOf, Bool.and_eq_true, beq_iff_eq]
  rintro ⟨-, rfl, -⟩
  exact h rfl

/-- Scanning skips over a leading segment that does not contain the
pattern's first character. -/
theorem pyReplace_skipData {a : List Char} {c : Char} {p : List Char} (b rep : List Char)
    (h : ∀ x ∈ a, x ≠ c) :
    pyReplace (a ++ b) (c :: p) rep = a ++ pyReplace b (c :: p) rep := by
  induction a with
  | nil => simp
  | cons x xs ih =>
    have hx : x ≠ c := h x (List.mem_cons_self x xs)
    rw [List.cons_append,
      pyReplace_skip rep (List.cons_ne_nil c p) (not_isPrefixOf_head (Ne.symm hx)),
      ih (fun y hy => h y (List.mem_cons_of_mem x hy)), List.cons_append]

/-- Scanning skips over a leading token block when the pattern matches at
none of the block's positions. -/
theorem pyReplace_skipTok {t b pat : List Char} (rep : List Char) (hp : pat ≠ [])
    (h : ∀ n, n < t.length → ¬ pat.isPrefixOf (t.drop n ++ b)) :
    pyReplace (t ++ b) pat rep = t ++ pyReplace b pat rep := by
  induction t with
  | nil => simp
  | cons x xs ih =>
    have h0 : ¬ pat.isPrefixOf (x :: (xs ++ b)) := by
      have := h 0 (by simp)
      simpa using this
    rw [List.cons_append, pyReplace_skip rep hp h0,
      ih (fun n hn => by simpa using h (n + 1) (by simpa using Nat.succ_lt_succ hn)),
      List.cons_append]

/-- A pattern containing a character that is absent from the string never
fires. -/
theorem pyReplace_noOcc {s pat : List Char} {c : Char} (rep : List Char)
    (hc : c ∈ pat) (h : ∀ x ∈ s, x ≠ c) : pyReplace s pat rep = s := by
  have hp : pat ≠ [] := by rintro rfl; simp at hc
  induction s with
  | nil => exact pyReplace_nil rep hp
  | cons x xs ih =>
    have hpre : ¬ pat.isPrefixOf (x :: xs) := by
      intro hpre
      exact h c ((List.isPrefixOf_iff_prefix.mp hpre).subset hc) rfl
    rw [pyReplace_skip rep hp hpre,
      ih (fun y hy => h y (List.mem_cons_of_mem x hy))]

/-- A lone occurrence of the pattern at the front of the string. -/
theorem pyReplace_frontOnly {pat rest rep : List Char} {c : Char}
    (hp : pat ≠ []) (hc : c ∈ pat) (hrest : ∀ x ∈ rest, x ≠ c) :
    pyReplace (pat ++ rest) pat rep = rep ++ rest := by
  rw [pyReplace_front rest rep hp, pyReplace_noOcc rep hc hrest]

/-- A lone occurrence of the pattern at the end of the string, identified
by the pattern's head character being absent before it. -/
theorem pyReplace_endOnly {a : List Char} {c : Char} {p rep : List Char}
    (ha : ∀ x ∈ a, x ≠ c) :
    pyReplace (a ++ (c :: p)) (c :: p) rep = a ++ rep := by
  rw [pyReplace_skipData (c :: p) rep ha,
    pyReplace_fire rep (List.cons_ne_nil c p)
      (List.isPrefixOf_iff_prefix.mpr (List.prefix_refl (c :: p))),
    List.drop_length, pyReplace_nil rep (List.cons_ne_nil c p), List.append_nil]

/-! Membership facts for the `setdiff1d` model. -/

theorem mem_insertStr {x a : String} {l : List String} :
    x ∈ insertStr a l ↔ x = a ∨ x ∈ l := by
  induction l with
  | nil => simp [insertStr]
  | cons y ys ih =>
    by_cases h : strLe a y
    · simp [insertStr, h]
    · simp [insertStr, h, ih]
      tauto

theorem mem_sortStrings {x : String} {l : List String} :
    x ∈ sortStrings l ↔ x ∈ l := by
  induction l with
  | nil => simp [sortStrings]
  | cons y ys ih => simp [sortStrings, mem_insertStr, ih]

theorem mem_setdiff1d {x : String} {ar1 ar2 : List String} :
    x ∈ setdiff1d ar1 ar2 ↔ x ∈ ar1 ∧ x ∉ ar2 := by
  simp [setdiff1d, mem_sortStrings, List.mem_dedup, List.mem_filter]

/-! Structural facts about the extractor. -/

theorem parseConfigs_cons_clean {dt : String} {line : List Char}
    (rest : List (List Char)) (h : containsSub line profileSentinel = false) :
    parseConfigs dt (line :: rest) = parseConfigs dt rest := by
  simp [parseConfigs, h]

theorem parseConfigs_skip_clean {dt : String} {pre : List (List Char)}
    (rest : List (List Char)) (h : ∀ l ∈ pre, containsSub l profileSentinel = false) :
    parseConfigs dt (pre ++ rest) = parseConfigs dt rest := by
  induction pre with
  | nil => rfl
  | cons l ls ih =>
    rw [List.cons_append, parseConfigs_cons_clean _ (h l (List.mem_cons_self l ls)),
      ih (fun l' hl' => h l' (List.mem_cons_of_mem l hl'))]

theorem parseConfigs_no_sentinel {dt : String} {content : List (List Char)}
    (h : ∀ l ∈ content, containsSub l profileSentinel = false) :
    parseConfigs dt content = ([], Except.ok none) := by
  have h2 := @parseConfigs_skip_clean dt content [] h
  simpa using h2

theorem parseConfigs_cons_sentinel_ok {dt : String} {line : List Char}
    (rest : List (List Char)) {j : Json}
    (hs : containsSub line profileSentinel = true)
    (hk : 2 ≤ (pySplit line telemetryKey).length)
    (hj : jsonLoads (preprocessPayload dt (isolatePayload line)) = Except.ok j) :
    parseConfigs dt (line :: rest) = ([], Except.ok (some j)) := by
  match hsp : pySplit line telemetryKey with
  | [] => rw [hsp] at hk; simp at hk
  | [a] => rw [hsp] at hk; simp at hk
  | a :: b :: l => simp [parseConfigs, hs, hsp, hj]

theorem parseConfigs_cons_sentinel_err {dt : String} {line : List Char}
    (rest : List (List Char)) {msg : String}
    (hs : containsSub line profileSentinel = true)
    (hk : 2 ≤ (pySplit line telemetryKey).length)
    (hj : jsonLoads (preprocessPayload dt (isolatePayload line)) = Except.error msg) :
    parseConfigs dt (line :: rest) =
      (msg :: (parseConfigs dt rest).1, (parseConfigs dt rest).2) := by
  match hsp : pySplit line telemetryKey with
  | [] => rw [hsp] at hk; simp at hk
  | [a] => rw [hsp] at hk; simp at hk
  | a :: b :: l => simp [parseConfigs, hs, hsp, hj]

/-! Soundness of the find-online loop. -/

theorem findOnlineLoop_sound {dt : String} {online : String → Bool}
    {ipOf : String → String → String} :
    ∀ {l : List String} {r : String},
      findOnlineLoop dt online ipOf l = Except.ok (some r) →
      ∃ mac, mac ∈ l ∧ online mac = true ∧
        ((dt = "XI5" ∧ r = mac) ∨
         ((dt = "XB3" ∨ dt = "XB6" ∨ dt = "XF3" ∨ dt = "XG") ∧ r = ipOf mac dt)) := by
  intro l
  induction l with
  | nil => intro r h; simp [findOnlineLoop] at h
  | cons mac rest ih =>
    intro r h
    by_cases hon : online mac
    · by_cases h5 : dt = "XI5"
      · refine ⟨mac, List.mem_cons_self mac rest, hon, Or.inl ⟨h5, ?_⟩⟩
        simp [findOnlineLoop, hon, h5] at h
        exact h.symm
      · by_cases h4 : dt = "XB3" ∨ dt = "XB6" ∨ dt = "XF3" ∨ dt = "XG"
        · refine ⟨mac, List.mem_cons_self mac rest, hon, Or.inr ⟨h4, ?_⟩⟩
          simp [findOnlineLoop, hon, h5, h4] at h
          exact h.symm
        · exfalso
          simp [findOnlineLoop, hon, h5, h4] at h
    · simp only [findOnlineLoop, hon, if_false] at h
      obtain ⟨mac', hmem, hon', hcase⟩ := ih h
      exact ⟨mac', List.mem_cons_of_mem mac hmem, hon', hcase⟩

/-- C1: for every device marker list D and reference marker list R, the
marker diff `diffMarkers D R` (the `np.setdiff1d(errors_conf,
errors_configs)` computation) contains exactly the elements of R not in
D; consequently it is a subset of R, the diff of R against itself is
empty, and the diff against an empty device list is the full reference
set. -/
theorem c1_diff_is_reference_minus_device (D R : List String) :
    (∀ x, x ∈ diffMarkers D R ↔ (x ∈ R ∧ x ∉ D))
    ∧ (∀ x ∈ diffMarkers D R, x ∈ R)
    ∧ diffMarkers R R = []
    ∧ (∀ x, x ∈ diffMarkers [] R ↔ x ∈ R) := by
  refine ⟨fun x => mem_setdiff1d, fun x hx => (mem_setdiff1d.mp hx).1, ?_, fun x => ?_⟩
  · refine List.eq_nil_iff_forall_not_mem.mpr (fun x hx => ?_)
    obtain ⟨h1, h2⟩ := mem_setdiff1d.mp hx
    exact h2 h1
  · simp [diffMarkers, mem_setdiff1d]

/-- C2: the claim says the finder yields no result without raising when
the candidate list is exhausted, and short-circuits on an empty list.
The code instead raises `IndexError` from `macs.pop()` — both on an
empty candidate list and after exhausting an all-offline list —
contradicting its own docstring (`Return None is list of MAC addresses
has been exhausted`). -/
theorem c2_find_online_exhaustion_raises :
    findOnlineDevice "XB3" (fun _ => false) (fun _ _ => "ip") []
      = Except.error PyErr.indexError
    ∧ findOnlineDevice "XB3" (fun _ => false) (fun _ _ => "ip") ["macA", "macB"]
      = Except.error PyErr.indexError :=
  ⟨rfl, rfl⟩

/-- C3: the text normalizer performs exactly the claimed steps in order:
the five placeholder substitutions, the quote strip, the five restoring
substitutions (with the double-spaced key/value separator), and the
final backslash-to-`#` substitution; illustrated on a concrete input
exercising the spacing and backslash quirks. -/
theorem c3_normalizer_is_four_passes :
    (∀ data, removeDoubleQuotes data =
        hashBackslashPass (restorePass (stripQuotesPass (placeholderPass data))))
    ∧ removeDoubleQuotes (lc "\x7b\"A\" : \"B\\C\"\x7d") = lc "\x7b\"A\"  :  \"B#C\"\x7d" :=
  ⟨fun _ => rfl, rfl⟩

/-- C4: the extractor isolates the payload of the first sentinel line by
the two fixed splits; families XB3/XB6/XF3 get exactly the verbatim
`"cid":"0"` to `cid:0` substitution (shown on the claim's example
fragment) and families XG/XI5 are routed through the text normalizer;
when the preprocessed payload parses, that parse is the extractor's
result. -/
theorem c4_extractor_family_branching :
    preprocessPayload "XB3" (lc "\x7b\"header\":\"X1_SYSTEM_ERROR\",\"cid\":\"0\"\x7d")
      = lc "\x7b\"header\":\"X1_SYSTEM_ERROR\",cid:0\x7d"
    ∧ (∀ dt payload, dt = "XB3" ∨ dt = "XB6" ∨ dt = "XF3" →
        preprocessPayload dt payload = pyReplace payload (lc "\"cid\":\"0\"") (lc "cid:0"))
    ∧ (∀ dt payload, dt = "XG" ∨ dt = "XI5" →
        preprocessPayload dt payload = removeDoubleQuotes payload)
    ∧ (∀ (dt : String) (pre post : List (List Char)) (line : List Char) (j : Json),
        (∀ l ∈ pre, containsSub l profileSentinel = false) →
        containsSub line profileSentinel = true →
        2 ≤ (pySplit line telemetryKey).length →
        jsonLoads (preprocessPayload dt (isolatePayload line)) = Except.ok j →
        parseConfigs dt (pre ++ line :: post) = ([], Except.ok (some j))) := by
  refine ⟨rfl, ?_, ?_, ?_⟩
  · intro dt payload h
    simp only [preprocessPayload]
    rw [if_pos h]
  · intro dt payload h
    have hnot : ¬ (dt = "XB3" ∨ dt = "XB6" ∨ dt = "XF3") := by
      rcases h with rfl | rfl <;> decide
    simp only [preprocessPayload]
    rw [if_neg hnot, if_pos h]
  · intro dt pre post line j hpre hs hk hj
    rw [parseConfigs_skip_clean _ hpre, parseConfigs_cons_sentinel_ok post hs hk hj]

/-- Witness for C4 at a concrete XG config file: the first line lacks the
sentinel, the second line's payload is isolated, normalized and
parsed. -/
theorem c4_extractor_family_branching_witness :
    parseConfigs "XG"
        [lc "no marker here",
         lc "urn:settings:TelemetryProfile stuff telemetryProfile\":\x7b\"A\":\"B\"\x7d,\"schedule\":\"s"]
      = ([], Except.ok (some (Json.obj [(lc "A", Json.jstr (lc "B"))]))) :=
  c4_extractor_family_branching.2.2.2 "XG" [lc "no marker here"] []
    (lc "urn:settings:TelemetryProfile stuff telemetryProfile\":\x7b\"A\":\"B\"\x7d,\"schedule\":\"s")
    (Json.obj [(lc "A", Json.jstr (lc "B"))])
    (by decide) (by decide) (by decide) rfl

/-- C5: whenever the finder returns a value, that value comes from a
candidate of the input list whose liveness check succeeded, whatever the
shuffle order: the MAC itself for device type XI5, the IP resolved from
the live MAC for XB3/XB6/XF3/XG. -/
theorem c5_find_online_result_is_live_candidate (dt : String) (online : String → Bool)
    (ipOf : String → String → String) (macs : List String) (r : String)
    (h : findOnlineDevice dt online ipOf macs = Except.ok (some r)) :
    ∃ mac, mac ∈ macs ∧ online mac = true ∧
      ((dt = "XI5" ∧ r = mac) ∨
       ((dt = "XB3" ∨ dt = "XB6" ∨ dt = "XF3" ∨ dt = "XG") ∧ r = ipOf mac dt)) := by
  obtain ⟨mac, hmem, hon, hcase⟩ := findOnlineLoop_sound h
  exact ⟨mac, List.mem_reverse.mp hmem, hon, hcase⟩

/-- Witness for C5 on the spec's example: macA offline, macB online,
type XI5, result `macB`. -/
theorem c5_find_online_result_is_live_candidate_witness :
    ∃ mac, mac ∈ ["macA", "macB"] ∧ (fun m => m == "macB") mac = true ∧
      (("XI5" = "XI5" ∧ "macB" = mac) ∨
       (("XI5" = "XB3" ∨ "XI5" = "XB6" ∨ "XI5" = "XF3" ∨ "XI5" = "XG")
         ∧ "macB" = (fun _ _ => "ip") mac "XI5")) :=
  c5_find_online_result_is_live_candidate "XI5" (fun m => m == "macB")
    (fun _ _ => "ip") ["macA", "macB"] "macB" rfl

/-- C7: the extractor returns no result on a multi-line input whose
lines all lack the sentinel, and when JSON parsing of the isolated
payload fails it records the exception message and returns no result; in
both cases the outcome is a normal return, not a raised exception. -/
theorem c7_extractor_failure_yields_none :
    (∀ (dt : String) (content : List (List Char)),
        (∀ l ∈ content, containsSub l profileSentinel = false) →
        parseConfigs dt content = ([], Except.ok none))
    ∧ (∀ (dt : String) (pre post : List (List Char)) (line : List Char) (msg : String),
        (∀ l ∈ pre, containsSub l profileSentinel = false) →
        (∀ l ∈ post, containsSub l profileSentinel = false) →
        containsSub line profileSentinel = true →
        2 ≤ (pySplit line telemetryKey).length →
        jsonLoads (preprocessPayload dt (isolatePayload line)) = Except.error msg →
        parseConfigs dt (pre ++ line :: post) = ([msg], Except.ok none)) := by
  constructor
  · intro dt content h
    exact parseConfigs_no_sentinel h
  · intro dt pre post line msg hpre hpost hs hk hj
    rw [parseConfigs_skip_clean _ hpre, parseConfigs_cons_sentinel_err post hs hk hj,
      parseConfigs_no_sentinel hpost]

/-- Witness for C7 at a concrete XB3 config file whose sentinel line
carries an unparseable payload. -/
theorem c7_extractor_failure_yields_none_witness :
    parseConfigs "XB3"
        [lc "first line",
         lc "urn:settings:TelemetryProfile telemetryProfile\":NOTJSON,\"schedule\":\"s",
         lc "last line"]
      = (["Expecting value"], Except.ok none) :=
  c7_extractor_failure_yields_none.2 "XB3" [lc "first line"] [lc "last line"]
    (lc "urn:settings:TelemetryProfile telemetryProfile\":NOTJSON,\"schedule\":\"s")
    "Expecting value" (by decide) (by decide) (by decide) (by decide) rfl

/-- C8: the claim says an unparseable on-device payload makes the diff
computation yield no result non-fatally.  The extractor does catch and
log the parse failure and returns `None`, but `get_configs_difference`
then evaluates `pd.DataFrame(None)["header"]`, which raises an uncaught
`KeyError`: the failure is fatal to the diff's caller. -/
theorem c8_parse_failure_is_fatal :
    parseConfigs "XB3"
        [lc "urn:settings:TelemetryProfile telemetryProfile\":NOTJSON,\"schedule\":\"s"]
      = (["Expecting value"], Except.ok none)
    ∧ (getConfigsDifference "XB3"
        [lc "urn:settings:TelemetryProfile telemetryProfile\":NOTJSON,\"schedule\":\"s"]
        ["SOME_MARKER"]).2 = Except.error PyErr.keyError :=
  ⟨rfl, rfl⟩

/-- C9: the claim says a daily-errors query with zero result records
yields an empty collection.  The zero-records branch of
`get_daily_errors` does return `[]`, but it is unreachable: building the
query calls `get_splunk_daily_percents_query`, which reads the
never-assigned attribute `__splunk_query_daily_percent` (the constructor
assigns `__splunk_query_daily_percents`), so every call raises
`AttributeError` first. -/
theorem c9_daily_errors_empty_raises :
    getDailyErrors [] = Except.error PyErr.attributeError
    ∧ dailyErrorsFromEvents [] = Except.ok []
    ∧ "_Device__splunk_query_daily_percent" ∉ deviceInstanceAttrs :=
  ⟨rfl, rfl, by decide⟩

/-- C10 (amended): `get_static_error_df` is defined on neither `Device`
nor `Product`, every invocation of `get_configs_difference` raises some
Python exception before producing a diff result, and every invocation
whose payload was parsed into a header table raises exactly
`AttributeError` at the undefined accessor. -/
theorem c10_diff_never_returns :
    "get_static_error_df" ∉ deviceMethods
    ∧ (∀ (dt : String) (content : List (List Char)) (confMarkers : List String),
        ∃ e, (getConfigsDifference dt content confMarkers).2 = Except.error e)
    ∧ (∀ (dt : String) (content : List (List Char)) (confMarkers : List String)
        (d : Option Json),
        (parseConfigs dt content).2 = Except.ok d →
        (dataFrameColumn d (lc "header")).isOk = true →
        (getConfigsDifference dt content confMarkers).2
          = Except.error PyErr.attributeError) := by
  have hcontains : "get_static_error_df" ∉ deviceMethods := by decide
  refine ⟨by decide, ?_, ?_⟩
  · intro dt content confMarkers
    unfold getConfigsDifference
    match h2 : (parseConfigs dt content).2 with
    | Except.error e => exact ⟨e, by simp [h2]⟩
    | Except.ok data =>
      match h3 : dataFrameColumn data (lc "header") with
      | Except.error e => exact ⟨e, by simp [h2, h3]⟩
      | Except.ok cols => exact ⟨PyErr.attributeError, by simp [h2, h3, hcontains]⟩
  · intro dt content confMarkers d h2 h3
    unfold getConfigsDifference
    match h4 : dataFrameColumn d (lc "header") with
    | Except.error e => rw [h4] at h3; simp [Except.isOk, Except.toBool] at h3
    | Except.ok cols => simp [h2, h4, hcontains]

/-- Witness for C10 at a concrete XG config file whose payload parses
into a table with a `header` column. -/
theorem c10_diff_never_returns_witness :
    (getConfigsDifference "XG"
        [lc "urn:settings:TelemetryProfile telemetryProfile\":[\x7b\"header\":\"X\"\x7d],\"schedule\":\"s"]
        ["M"]).2 = Except.error PyErr.attributeError :=
  c10_diff_never_returns.2.2 "XG"
    [lc "urn:settings:TelemetryProfile telemetryProfile\":[\x7b\"header\":\"X\"\x7d],\"schedule\":\"s"]
    ["M"] (some (Json.arr [Json.obj [(lc "header", Json.jstr (lc "X"))]])) rfl rfl

/-- Counterexample to C10 as stated: not every invocation fails with the
attribute-lookup error — an invocation whose payload does not parse
fails earlier, with `KeyError` from `pd.DataFrame(None)["header"]`. -/
theorem c10_diff_never_returns_counterexample :
    ¬ (∀ (dt : String) (content : List (List Char)) (confMarkers : List String),
        (getConfigsDifference dt content confMarkers).2
          = Except.error PyErr.attributeError) := by
  intro h
  have h1 := h "XB3"
    [lc "urn:settings:TelemetryProfile telemetryProfile\":GARBAGE,\"schedule\":\"s"] []
  have h2 : (getConfigsDifference "XB3"
      [lc "urn:settings:TelemetryProfile telemetryProfile\":GARBAGE,\"schedule\":\"s"] []).2
      = Except.error PyErr.keyError := rfl
  rw [h2] at h1
  exact absurd (Except.error.inj h1) (by decide)

/-- Counterexample to C6 as stated: `\x7b"a":1\x7d` is valid JSON with no
literal backslash, yet the normalizer strips the key's closing quote,
producing `\x7b"a:1\x7d`, which no longer parses at all. -/
theorem c6_normalizer_counterexample :
    jsonLoads (lc "\x7b\"a\":1\x7d") = Except.ok (Json.obj [(lc "a", Json.jnum 1)])
    ∧ '\\' ∉ lc "\x7b\"a\":1\x7d"
    ∧ removeDoubleQuotes (lc "\x7b\"a\":1\x7d") = lc "\x7b\"a:1\x7d"
    ∧ (jsonLoads (removeDoubleQuotes (lc "\x7b\"a\":1\x7d"))).isOk = false :=
  ⟨rfl, by decide, rfl, rfl⟩

/-! Development for the amended C6: on flat all-string JSON objects over
a restricted alphabet, the normalizer is the identity. -/

/-- The structural token `\x7b"` opening a flat object. -/
def tLB : List Char := lc "\x7b\""

/-- The structural token `":"` separating key and value. -/
def tColon : List Char := lc "\":\""

/-- The structural token `","` separating two pairs. -/
def tComma : List Char := lc "\",\""

/-- The structural token `" : "` (spaced separator variant). -/
def tSpColon : List Char := lc "\" : \""

/-- The structural token `"\x7d` closing a flat object. -/
def tRB : List Char := lc "\"\x7d"

/-- Placeholder token for `\x7b"`. -/
def pVikr : List Char := lc "vikr"

/-- Placeholder token for `","`. -/
def pSandep : List Char := lc "sandep"

/-- Placeholder token for `" : "`. -/
def pArun : List Char := lc "arun"

/-- Placeholder token for `":"`. -/
def pBindhu : List Char := lc "bindhu"

/-- Placeholder token for `"\x7d`. -/
def pGauth : List Char := lc "gauth"

/-- Characters allowed in keys and values of the flat objects the
amended C6 quantifies over: uppercase letters, digits, underscore
(the shape of the telemetry marker names). -/
def goodChar (c : Char) : Bool :=
  ('A' ≤ c && c ≤ 'Z') || ('0' ≤ c && c ≤ '9') || c = '_'

/-- Every character that occurs in a structural or placeholder token. -/
def specialChars : List Char :=
  ['\x7b', '\x7d', '"', ':', ',', ' ', '\\',
   'v', 'i', 'k', 'r', 's', 'a', 'n', 'd', 'e', 'p', 'b', 'u', 'g', 't', 'h']

/-- The body of a flat object: pairs joined by `colon` inside a pair and
`comma` between pairs. -/
def glue (colon comma : List Char) : List (List Char × List Char) → List Char
  | [] => []
  | [(k, v)] => k ++ colon ++ v
  | (k, v) :: rest => k ++ colon ++ v ++ comma ++ glue colon comma rest

/-- The rendered flat JSON object `\x7b"k1":"v1","k2":"v2",...\x7d`. -/
def renderFlatObj (pairs : List (List Char × List Char)) : List Char :=
  tLB ++ (glue tColon tComma pairs ++ tRB)

theorem goodChar_ne {c : Char} (h : goodChar c = true) :
    ∀ d ∈ specialChars, c ≠ d := by
  intro d hd
  rintro rfl
  fin_cases hd <;> exact absurd h (by decide)

theorem mem_glue {A B : List Char} {x : Char} :
    ∀ {pairs : List (List Char × List Char)}, x ∈ glue A B pairs →
      x ∈ A ∨ x ∈ B ∨ ∃ p ∈ pairs, (x ∈ p.1 ∨ x ∈ p.2) := by
  intro pairs
  induction pairs with
  | nil => intro h; simp [glue] at h
  | cons p rest ih =>
    obtain ⟨k, v⟩ := p
    match rest with
    | [] =>
      intro h
      rw [show glue A B [(k, v)] = k ++ A ++ v from rfl] at h
      simp only [List.append_assoc, List.mem_append] at h
      rcases h with h | h | h
      · exact Or.inr (Or.inr ⟨(k, v), by simp, Or.inl h⟩)
      · exact Or.inl h
      · exact Or.inr (Or.inr ⟨(k, v), by simp, Or.inr h⟩)
    | q :: rs =>
      intro h
      rw [show glue A B ((k, v) :: q :: rs) = k ++ A ++ v ++ B ++ glue A B (q :: rs)
        from rfl] at h
      simp only [List.append_assoc, List.mem_append] at h
      rcases h with h | h | h | h | h
      · exact Or.inr (Or.inr ⟨(k, v), by simp, Or.inl h⟩)
      · exact Or.inl h
      · exact Or.inr (Or.inr ⟨(k, v), by simp, Or.inr h⟩)
      · exact Or.inr (Or.inl h)
      · rcases ih h with h' | h' | ⟨p, hp, h'⟩
        · exact Or.inl h'
        · exact Or.inr (Or.inl h')
        · exact Or.inr (Or.inr ⟨p, List.mem_cons_of_mem _ hp, h'⟩)

theorem all_ne_append {a b : List Char} {c : Char}
    (ha : ∀ x ∈ a, x ≠ c) (hb : ∀ x ∈ b, x ≠ c) : ∀ x ∈ a ++ b, x ≠ c := by
  intro x hx
  rcases List.mem_append.mp hx with h | h
  · exact ha x h
  · exact hb x h

theorem all_ne_glue {A B : List Char} {pairs : List (List Char × List Char)} {c : Char}
    (hgood : ∀ p ∈ pairs, p.1.all goodChar = true ∧ p.2.all goodChar = true)
    (hA : ∀ x ∈ A, x ≠ c) (hB : ∀ x ∈ B, x ≠ c) (hc : c ∈ specialChars) :
    ∀ x ∈ glue A B pairs, x ≠ c := by
  intro x hx
  rcases mem_glue hx with h | h | ⟨p, hp, h⟩
  · exact hA x h
  · exact hB x h
  · rcases h with h | h
    · exact goodChar_ne (List.all_eq_true.mp (hgood p hp).1 x h) c hc
    · exact goodChar_ne (List.all_eq_true.mp (hgood p hp).2 x h) c hc

theorem all_ne_good {k : List Char} {c : Char} (hk : k.all goodChar = true)
    (hc : c ∈ specialChars) : ∀ x ∈ k, x ≠ c :=
  fun x hx => goodChar_ne (List.all_eq_true.mp hk x hx) c hc

/-- Variant of `pyReplace_skipData` keyed on the pattern's head. -/
theorem pyReplace_skipData₂ {a b pat rep : List Char} {c : Char}
    (hp : pat.head? = some c) (h : ∀ x ∈ a, x ≠ c) :
    pyReplace (a ++ b) pat rep = a ++ pyReplace b pat rep := by
  match pat, hp with
  | c' :: p, hp =>
    have hc : c' = c := by simpa using hp
    subst hc
    exact pyReplace_skipData b rep h

/-- Variant of `pyReplace_skipData₂` for a segment in cons shape. -/
theorem pyReplace_skipCons {d : Char} {v' b pat rep : List Char} {c : Char}
    (hp : pat.head? = some c) (hd : d ≠ c) (hv : ∀ x ∈ v', x ≠ c) :
    pyReplace (d :: (v' ++ b)) pat rep = d :: (v' ++ pyReplace b pat rep) :=
  calc pyReplace (d :: (v' ++ b)) pat rep
      = pyReplace ((d :: v') ++ b) pat rep := rfl
    _ = (d :: v') ++ pyReplace b pat rep := by
        refine pyReplace_skipData₂ hp ?_
        intro x hx
        rcases List.mem_cons.mp hx with rfl | hx
        · exact hd
        · exact hv x hx
    _ = d :: (v' ++ pyReplace b pat rep) := rfl

/-- Pass 2 of the normalizer on a rendered flat-object body: every
`","` pair separator becomes `sandep` and nothing else changes. -/
theorem glue_pass_comma :
    ∀ (pairs : List (List Char × List Char)),
      (∀ p ∈ pairs, p.1 ≠ [] ∧ p.2 ≠ [] ∧ p.1.all goodChar = true ∧ p.2.all goodChar = true) →
      pyReplace (glue tColon tComma pairs ++ tRB) tComma pSandep
        = glue tColon pSandep pairs ++ tRB
  | [], _ => by
    rw [show glue tColon tComma [] = [] from rfl, List.nil_append,
      pyReplace_noOcc pSandep (show ',' ∈ tComma by decide) (by decide)]
    rfl
  | [(k, v)], hgood => by
    obtain ⟨-, -, hk, hv⟩ := hgood (k, v) (List.mem_singleton.mpr rfl)
    have hall : ∀ x ∈ glue tColon tComma [(k, v)] ++ tRB, x ≠ ',' := by
      rw [show glue tColon tComma [(k, v)] = k ++ tColon ++ v from rfl]
      simp only [List.append_assoc]
      exact all_ne_append (all_ne_good hk (by decide))
        (all_ne_append (by decide)
          (all_ne_append (all_ne_good hv (by decide)) (by decide)))
    rw [pyReplace_noOcc pSandep (show ',' ∈ tComma by decide) hall]
    rfl
  | (k, v) :: q :: rs, hgood => by
    obtain ⟨-, hvne, hk, hv⟩ := hgood (k, v) (List.mem_cons_self _ _)
    have ih := glue_pass_comma (q :: rs) (fun p hp => hgood p (List.mem_cons_of_mem _ hp))
    obtain ⟨d, v', rfl⟩ := List.exists_cons_of_ne_nil hvne
    have hgd : goodChar d = true := List.all_eq_true.mp hv d (List.mem_cons_self _ _)
    have hkq : ∀ x ∈ k, x ≠ '"' := all_ne_good hk (by decide)
    have hv'q : ∀ x ∈ v', x ≠ '"' :=
      fun x hx => all_ne_good hv (by decide) x (List.mem_cons_of_mem _ hx)
    have hside : ∀ n, n < tColon.length →
        ¬ tComma.isPrefixOf (tColon.drop n
          ++ (d :: (v' ++ (tComma ++ (glue tColon tComma (q :: rs) ++ tRB))))) := by
      intro n hn
      have hn3 : n < 3 := hn
      interval_cases n
      · exact not_isPrefixOf_second (by decide)
      · exact not_isPrefixOf_head (by decide)
      · exact not_isPrefixOf_second (Ne.symm (goodChar_ne hgd ',' (by decide)))
    rw [show glue tColon tComma ((k, d :: v') :: q :: rs)
        = k ++ tColon ++ (d :: v') ++ tComma ++ glue tColon tComma (q :: rs) from rfl,
      show glue tColon pSandep ((k, d :: v') :: q :: rs)
        = k ++ tColon ++ (d :: v') ++ pSandep ++ glue tColon pSandep (q :: rs) from rfl]
    simp only [List.append_assoc, List.cons_append]
    rw [@pyReplace_skipData₂ k _ tComma pSandep '"' rfl hkq,
      pyReplace_skipTok pSandep (by decide : tComma ≠ []) hside,
      @pyReplace_skipCons d v' _ tComma pSandep '"' rfl
        (goodChar_ne hgd '"' (by decide)) hv'q,
      pyReplace_front _ pSandep (by decide : tComma ≠ []), ih]

/-- Pass 4 of the normalizer on the body: every `":"` key/value
separator becomes `bindhu`. -/
theorem glue_pass_colon :
    ∀ (pairs : List (List Char × List Char)),
      (∀ p ∈ pairs, p.1 ≠ [] ∧ p.2 ≠ [] ∧ p.1.all goodChar = true ∧ p.2.all goodChar = true) →
      pyReplace (glue tColon pSandep pairs ++ tRB) tColon pBindhu
        = glue pBindhu pSandep pairs ++ tRB
  | [], _ => by
    rw [show glue tColon pSandep [] = [] from rfl, List.nil_append,
      pyReplace_noOcc pBindhu (show ':' ∈ tColon by decide) (by decide)]
    rfl
  | [(k, v)], hgood => by
    obtain ⟨-, hvne, hk, hv⟩ := hgood (k, v) (List.mem_singleton.mpr rfl)
    obtain ⟨d, v', rfl⟩ := List.exists_cons_of_ne_nil hvne
    have hgd : goodChar d = true := List.all_eq_true.mp hv d (List.mem_cons_self _ _)
    have hv'q : ∀ x ∈ v', x ≠ '"' :=
      fun x hx => all_ne_good hv (by decide) x (List.mem_cons_of_mem _ hx)
    rw [show glue tColon pSandep [(k, d :: v')] = k ++ tColon ++ (d :: v') from rfl,
      show glue pBindhu pSandep [(k, d :: v')] = k ++ pBindhu ++ (d :: v') from rfl]
    simp only [List.append_assoc, List.cons_append]
    rw [@pyReplace_skipData₂ k _ tColon pBindhu '"' rfl (all_ne_good hk (by decide)),
      pyReplace_front _ pBindhu (by decide : tColon ≠ []),
      @pyReplace_skipCons d v' _ tColon pBindhu '"' rfl
        (goodChar_ne hgd '"' (by decide)) hv'q,
      pyReplace_noOcc pBindhu (show ':' ∈ tColon by decide) (by decide : ∀ x ∈ tRB, x ≠ ':')]
  | (k, v) :: q :: rs, hgood => by
    obtain ⟨-, hvne, hk, hv⟩ := hgood (k, v) (List.mem_cons_self _ _)
    have ih := glue_pass_colon (q :: rs) (fun p hp => hgood p (List.mem_cons_of_mem _ hp))
    obtain ⟨d, v', rfl⟩ := List.exists_cons_of_ne_nil hvne
    have hgd : goodChar d = true := List.all_eq_true.mp hv d (List.mem_cons_self _ _)
    have hv'q : ∀ x ∈ v', x ≠ '"' :=
      fun x hx => all_ne_good hv (by decide) x (List.mem_cons_of_mem _ hx)
    rw [show glue tColon pSandep ((k, d :: v') :: q :: rs)
        = k ++ tColon ++ (d :: v') ++ pSandep ++ glue tColon pSandep (q :: rs) from rfl,
      show glue pBindhu pSandep ((k, d :: v') :: q :: rs)
        = k ++ pBindhu ++ (d :: v') ++ pSandep ++ glue pBindhu pSandep (q :: rs) from rfl]
    simp only [List.append_assoc, List.cons_append]
    rw [@pyReplace_skipData₂ k _ tColon pBindhu '"' rfl (all_ne_good hk (by decide)),
      pyReplace_front _ pBindhu (by decide : tColon ≠ []),
      @pyReplace_skipCons d v' _ tColon pBindhu '"' rfl
        (goodChar_ne hgd '"' (by decide)) hv'q,
      @pyReplace_skipData₂ pSandep _ tColon pBindhu '"' rfl (by decide), ih]

/-- Pass 8 of the normalizer on the body: every `sandep` placeholder is
restored to the `","` pair separator. -/
theorem glue_pass_sandep :
    ∀ (pairs : List (List Char × List Char)),
      (∀ p ∈ pairs, p.1 ≠ [] ∧ p.2 ≠ [] ∧ p.1.all goodChar = true ∧ p.2.all goodChar = true) →
      pyReplace (glue pBindhu pSandep pairs ++ pGauth) pSandep tComma
        = glue pBindhu tComma pairs ++ pGauth
  | [], _ => by
    rw [show glue pBindhu pSandep [] = [] from rfl, List.nil_append,
      pyReplace_noOcc tComma (show 's' ∈ pSandep by decide) (by decide)]
    rfl
  | [(k, v)], hgood => by
    obtain ⟨-, -, hk, hv⟩ := hgood (k, v) (List.mem_singleton.mpr rfl)
    have hall : ∀ x ∈ glue pBindhu pSandep [(k, v)] ++ pGauth, x ≠ 's' := by
      rw [show glue pBindhu pSandep [(k, v)] = k ++ pBindhu ++ v from rfl]
      simp only [List.append_assoc]
      exact all_ne_append (all_ne_good hk (by decide))
        (all_ne_append (by decide)
          (all_ne_append (all_ne_good hv (by decide)) (by decide)))
    rw [pyReplace_noOcc tComma (show 's' ∈ pSandep by decide) hall]
    rfl
  | (k, v) :: q :: rs, hgood => by
    obtain ⟨-, hvne, hk, hv⟩ := hgood (k, v) (List.mem_cons_self _ _)
    have ih := glue_pass_sandep (q :: rs) (fun p hp => hgood p (List.mem_cons_of_mem _ hp))
    obtain ⟨d, v', rfl⟩ := List.exists_cons_of_ne_nil hvne
    have hgd : goodChar d = true := List.all_eq_true.mp hv d (List.mem_cons_self _ _)
    have hv's : ∀ x ∈ v', x ≠ 's' :=
      fun x hx => all_ne_good hv (by decide) x (List.mem_cons_of_mem _ hx)
    rw [show glue pBindhu pSandep ((k, d :: v') :: q :: rs)
        = k ++ pBindhu ++ (d :: v') ++ pSandep ++ glue pBindhu pSandep (q :: rs) from rfl,
      show glue pBindhu tComma ((k, d :: v') :: q :: rs)
        = k ++ pBindhu ++ (d :: v') ++ tComma ++ glue pBindhu tComma (q :: rs) from rfl]
    simp only [List.append_assoc, List.cons_append]
    rw [@pyReplace_skipData₂ k _ pSandep tComma 's' rfl (all_ne_good hk (by decide)),
      @pyReplace_skipData₂ pBindhu _ pSandep tComma 's' rfl (by decide),
      @pyReplace_skipCons d v' _ pSandep tComma 's' rfl
        (goodChar_ne hgd 's' (by decide)) hv's,
      pyReplace_front _ tComma (by decide : pSandep ≠ []), ih]

/-- Pass 10 of the normalizer on the body: every `bindhu` placeholder is
restored to the `":"` key/value separator. -/
theorem glue_pass_bindhu :
    ∀ (pairs : List (List Char × List Char)),
      (∀ p ∈ pairs, p.1 ≠ [] ∧ p.2 ≠ [] ∧ p.1.all goodChar = true ∧ p.2.all goodChar = true) →
      pyReplace (glue pBindhu tComma pairs ++ pGauth) pBindhu tColon
        = glue tColon tComma pairs ++ pGauth
  | [], _ => by
    rw [show glue pBindhu tComma [] = [] from rfl, List.nil_append,
      pyReplace_noOcc tColon (show 'b' ∈ pBindhu by decide) (by decide)]
    rfl
  | [(k, v)], hgood => by
    obtain ⟨-, hvne, hk, hv⟩ := hgood (k, v) (List.mem_singleton.mpr rfl)
    obtain ⟨d, v', rfl⟩ := List.exists_cons_of_ne_nil hvne
    have hgd : goodChar d = true := List.all_eq_true.mp hv d (List.mem_cons_self _ _)
    have hv'b : ∀ x ∈ v', x ≠ 'b' :=
      fun x hx => all_ne_good hv (by decide) x (List.mem_cons_of_mem _ hx)
    rw [show glue pBindhu tComma [(k, d :: v')] = k ++ pBindhu ++ (d :: v') from rfl,
      show glue tColon tComma [(k, d :: v')] = k ++ tColon ++ (d :: v') from rfl]
    simp only [List.append_assoc, List.cons_append]
    rw [@pyReplace_skipData₂ k _ pBindhu tColon 'b' rfl (all_ne_good hk (by decide)),
      pyReplace_front _ tColon (by decide : pBindhu ≠ []),
      @pyReplace_skipCons d v' _ pBindhu tColon 'b' rfl
        (goodChar_ne hgd 'b' (by decide)) hv'b,
      pyReplace_noOcc tColon (show 'b' ∈ pBindhu by decide) (by decide : ∀ x ∈ pGauth, x ≠ 'b')]
  | (k, v) :: q :: rs, hgood => by
    obtain ⟨-, hvne, hk, hv⟩ := hgood (k, v) (List.mem_cons_self _ _)
    have ih := glue_pass_bindhu (q :: rs) (fun p hp => hgood p (List.mem_cons_of_mem _ hp))
    obtain ⟨d, v', rfl⟩ := List.exists_cons_of_ne_nil hvne
    have hgd : goodChar d = true := List.all_eq_true.mp hv d (List.mem_cons_self _ _)
    have hv'b : ∀ x ∈ v', x ≠ 'b' :=
      fun x hx => all_ne_good hv (by decide) x (List.mem_cons_of_mem _ hx)
    rw [show glue pBindhu tComma ((k, d :: v') :: q :: rs)
        = k ++ pBindhu ++ (d :: v') ++ tComma ++ glue pBindhu tComma (q :: rs) from rfl,
      show glue tColon tComma ((k, d :: v') :: q :: rs)
        = k ++ tColon ++ (d :: v') ++ tComma ++ glue tColon tComma (q :: rs) from rfl]
    simp only [List.append_assoc, List.cons_append]
    rw [@pyReplace_skipData₂ k _ pBindhu tColon 'b' rfl (all_ne_good hk (by decide)),
      pyReplace_front _ tColon (by decide : pBindhu ≠ []),
      @pyReplace_skipCons d v' _ pBindhu tColon 'b' rfl
        (goodChar_ne hgd 'b' (by decide)) hv'b,
      @pyReplace_skipData₂ tComma _ pBindhu tColon 'b' rfl (by decide), ih]

/-- C6 (amended): on a nonempty flat JSON object whose keys and values
are nonempty strings of uppercase letters, digits and underscores, the
text normalizer is the identity, so its output parses back to exactly
the same structural content; valid JSON with non-string scalar values is
instead mangled (see the counterexample). -/
theorem c6_normalizer_flat_object_identity (pairs : List (List Char × List Char))
    (_hne : pairs ≠ [])
    (hgood : ∀ p ∈ pairs, p.1 ≠ [] ∧ p.2 ≠ [] ∧
      p.1.all goodChar = true ∧ p.2.all goodChar = true) :
    removeDoubleQuotes (renderFlatObj pairs) = renderFlatObj pairs
    ∧ jsonLoads (removeDoubleQuotes (renderFlatObj pairs)) = jsonLoads (renderFlatObj pairs) := by
  have hgood' : ∀ p ∈ pairs, p.1.all goodChar = true ∧ p.2.all goodChar = true :=
    fun p hp => ⟨(hgood p hp).2.2.1, (hgood p hp).2.2.2⟩
  have h1 : pyReplace (renderFlatObj pairs) tLB pVikr
      = pVikr ++ (glue tColon tComma pairs ++ tRB) := by
    rw [show renderFlatObj pairs = tLB ++ (glue tColon tComma pairs ++ tRB) from rfl]
    exact pyReplace_frontOnly (by decide : tLB ≠ []) (show '\x7b' ∈ tLB by decide)
      (all_ne_append (all_ne_glue hgood' (by decide) (by decide) (by decide)) (by decide))
  have h2 : pyReplace (pVikr ++ (glue tColon tComma pairs ++ tRB)) tComma pSandep
      = pVikr ++ (glue tColon pSandep pairs ++ tRB) := by
    rw [@pyReplace_skipData₂ pVikr _ tComma pSandep '"' rfl (by decide),
      glue_pass_comma pairs hgood]
  have h3 : pyReplace (pVikr ++ (glue tColon pSandep pairs ++ tRB)) tSpColon pArun
      = pVikr ++ (glue tColon pSandep pairs ++ tRB) :=
    pyReplace_noOcc pArun (show ' ' ∈ tSpColon by decide)
      (all_ne_append (by decide)
        (all_ne_append (all_ne_glue hgood' (by decide) (by decide) (by decide)) (by decide)))
  have h4 : pyReplace (pVikr ++ (glue tColon pSandep pairs ++ tRB)) tColon pBindhu
      = pVikr ++ (glue pBindhu pSandep pairs ++ tRB) := by
    rw [@pyReplace_skipData₂ pVikr _ tColon pBindhu '"' rfl (by decide),
      glue_pass_colon pairs hgood]
  have h5 : pyReplace (pVikr ++ (glue pBindhu pSandep pairs ++ tRB)) tRB pGauth
      = pVikr ++ (glue pBindhu pSandep pairs ++ pGauth) := by
    rw [@pyReplace_skipData₂ pVikr _ tRB pGauth '"' rfl (by decide)]
    exact congrArg (fun x => pVikr ++ x)
      (pyReplace_endOnly (all_ne_glue hgood' (by decide) (by decide) (by decide)))
  have h6 : pyReplace (pVikr ++ (glue pBindhu pSandep pairs ++ pGauth)) (lc "\"") []
      = pVikr ++ (glue pBindhu pSandep pairs ++ pGauth) :=
    pyReplace_noOcc [] (show '"' ∈ lc "\"" by decide)
      (all_ne_append (by decide)
        (all_ne_append (all_ne_glue hgood' (by decide) (by decide) (by decide)) (by decide)))
  have h7 : pyReplace (pVikr ++ (glue pBindhu pSandep pairs ++ pGauth)) pVikr tLB
      = tLB ++ (glue pBindhu pSandep pairs ++ pGauth) :=
    pyReplace_frontOnly (by decide : pVikr ≠ []) (show 'v' ∈ pVikr by decide)
      (all_ne_append (all_ne_glue hgood' (by decide) (by decide) (by decide)) (by decide))
  have h8 : pyReplace (tLB ++ (glue pBindhu pSandep pairs ++ pGauth)) pSandep tComma
      = tLB ++ (glue pBindhu tComma pairs ++ pGauth) := by
    rw [@pyReplace_skipData₂ tLB _ pSandep tComma 's' rfl (by decide),
      glue_pass_sandep pairs hgood]
  have h9 : pyReplace (tLB ++ (glue pBindhu tComma pairs ++ pGauth)) pArun (lc "\"  :  \"")
      = tLB ++ (glue pBindhu tComma pairs ++ pGauth) :=
    pyReplace_noOcc (lc "\"  :  \"") (show 'r' ∈ pArun by decide)
      (all_ne_append (by decide)
        (all_ne_append (all_ne_glue hgood' (by decide) (by decide) (by decide)) (by decide)))
  have h10 : pyReplace (tLB ++ (glue pBindhu tComma pairs ++ pGauth)) pBindhu tColon
      = tLB ++ (glue tColon tComma pairs ++ pGauth) := by
    rw [@pyReplace_skipData₂ tLB _ pBindhu tColon 'b' rfl (by decide),
      glue_pass_bindhu pairs hgood]
  have h11 : pyReplace (tLB ++ (glue tColon tComma pairs ++ pGauth)) pGauth tRB
      = tLB ++ (glue tColon tComma pairs ++ tRB) := by
    rw [@pyReplace_skipData₂ tLB _ pGauth tRB 'g' rfl (by decide)]
    exact congrArg (fun x => tLB ++ x)
      (pyReplace_endOnly (all_ne_glue hgood' (by decide) (by decide) (by decide)))
  have h12 : pyReplace (tLB ++ (glue tColon tComma pairs ++ tRB)) (lc "\\") (lc "#")
      = tLB ++ (glue tColon tComma pairs ++ tRB) :=
    pyReplace_noOcc (lc "#") (show '\\' ∈ lc "\\" by decide)
      (all_ne_append (by decide)
        (all_ne_append (all_ne_glue hgood' (by decide) (by decide) (by decide)) (by decide)))
  have hid : removeDoubleQuotes (renderFlatObj pairs) = renderFlatObj pairs := by
    show pyReplace (pyReplace (pyReplace (pyReplace (pyReplace (pyReplace (pyReplace
        (pyReplace (pyReplace (pyReplace (pyReplace (pyReplace
          (renderFlatObj pairs) tLB pVikr) tComma pSandep) tSpColon pArun)
          tColon pBindhu) tRB pGauth) (lc "\"") []) pVikr tLB) pSandep tComma)
          pArun (lc "\"  :  \"")) pBindhu tColon) pGauth tRB) (lc "\\") (lc "#")
      = renderFlatObj pairs
    rw [h1, h2, h3, h4, h5, h6, h7, h8, h9, h10, h11, h12]
    rfl
  exact ⟨hid, congrArg jsonLoads hid⟩

/-- Witness for the amended C6 on the two-pair flat object
`\x7b"HEADER":"X1_SYSTEM_ERROR","CID":"0"\x7d`. -/
theorem c6_normalizer_flat_object_identity_witness :
    removeDoubleQuotes (renderFlatObj [(lc "HEADER", lc "X1_SYSTEM_ERROR"), (lc "CID", lc "0")])
      = renderFlatObj [(lc "HEADER", lc "X1_SYSTEM_ERROR"), (lc "CID", lc "0")]
    ∧ jsonLoads (removeDoubleQuotes
        (renderFlatObj [(lc "HEADER", lc "X1_SYSTEM_ERROR"), (lc "CID", lc "0")]))
      = jsonLoads (renderFlatObj [(lc "HEADER", lc "X1_SYSTEM_ERROR"), (lc "CID", lc "0")]) :=
  c6_normalizer_flat_object_identity
    [(lc "HEADER", lc "X1_SYSTEM_ERROR"), (lc "CID", lc "0")]
    (by decide) (by decide)
